import Mathlib

/-!
Shallow embedding of `src/components/VideoPlayer.tsx` (a React single-player
video playlist component).

Conventions of the embedding:
* JavaScript numbers that the component only ever uses at integral values
  (playlist indices) are modelled as `Int`; JavaScript's `%` on integers is
  truncated remainder, i.e. `Int.tmod`.
* JavaScript numbers holding media times/durations are modelled as `ℚ`
  (the component performs only field arithmetic on them).
* The playlist is only relevant through its length `N = playlist.length`;
  all definitions are parameterised by `N`.
* `videoRef.current` (the HTML media element, possibly absent) is modelled as
  an `Option Binding`; the commands the component issues to it (`play()`,
  `pause()`) are reified in `MediaCmd` so theorems can speak about which
  commands a handler emits.
* React state updater calls (`setPlaying`, `setCurrentIndex`, ...) are
  modelled as functional record updates on explicit state records.
-/

/-- React state of the component that the navigation/playback claims are
about: `currentIndex` and `playing` (the cached `isPlaying` flag). -/
structure PState where
  currentIndex : Int
  playing : Bool
deriving DecidableEq, Repr

/-- The index computation of `goTo` (VideoPlayer.tsx line 32):
`(index + playlist.length) % playlist.length` with JavaScript `%`,
which on integers is truncated remainder (`Int.tmod`). -/
def goToIndex (N : Nat) (index : Int) : Int :=
  Int.tmod (index + (N : Int)) (N : Int)

/-- Handler `goTo(index)` (VideoPlayer.tsx lines 31-35): sets `currentIndex` to
`goToIndex N index` and sets `playing := true`. -/
def goTo (N : Nat) (index : Int) (s : PState) : PState :=
  { s with currentIndex := goToIndex N index, playing := true }

/-- The `ended`-event handler `onEnd` (VideoPlayer.tsx line 49):
`goTo(currentIndex + 1)`. -/
def onEnd (N : Nat) (s : PState) : PState :=
  goTo N (s.currentIndex + 1) s

/-- The observable state of the HTML media element (`videoRef.current`)
that the embedded handlers read or write: its real `paused` flag and its
`currentTime`. -/
structure Binding where
  paused : Bool
  currentTime : ℚ
deriving DecidableEq, Repr

/-- Transport commands the component issues to the media element. -/
inductive MediaCmd where
  | play
  | pause
deriving DecidableEq, Repr

/-- Handler `togglePlay` (VideoPlayer.tsx lines 24-29).  `if (!v) return;` — absent
binding is a no-op.  Otherwise it branches on the binding's real `paused`
flag: paused ⇒ issue `play()` and `setPlaying(true)`; playing ⇒ issue
`pause()` and `setPlaying(false)`.  The returned list is the sequence of
commands issued to the media element. -/
def togglePlay (v : Option Binding) (s : PState) : List MediaCmd × PState :=
  match v with
  | none => ([], s)
  | some b =>
    if b.paused then ([MediaCmd.play], { s with playing := true })
    else ([MediaCmd.pause], { s with playing := false })

/-- Outcome of an asynchronous `play()` attempt: resolved, or rejected
(autoplay policy / missing user gesture). -/
inductive PlayOutcome where
  | success
  | denied
deriving DecidableEq, Repr

/-- The reload effect (VideoPlayer.tsx lines 37-42), run on `currentIndex`
change: `if (!v) return; v.load(); if (playing) v.play().catch(() => {});`.
`load()` aborts playback and resets the element (`paused := true`,
`currentTime := 0`).  When `playing` is true a play attempt is made whose
`outcome` is the async result: on success the element leaves the paused
state; on rejection the `.catch` handler has an empty body, so the React
state `s` is returned untouched. -/
def reloadEffect (v : Option Binding) (s : PState) (outcome : PlayOutcome) :
    Option Binding × PState :=
  match v with
  | none => (none, s)
  | some _ =>
    let loaded : Binding := { paused := true, currentTime := 0 }
    if s.playing then
      match outcome with
      | PlayOutcome.success => (some { loaded with paused := false }, s)
      | PlayOutcome.denied => (some loaded, s)
    else (some loaded, s)

/-- The bounding rectangle of the progress track
(`progressRef.current?.getBoundingClientRect()`). -/
structure Rect where
  left : ℚ
  width : ℚ
deriving DecidableEq, Repr

/-- Handler `handleProgressClick` (VideoPlayer.tsx lines 74-79): if either the
progress rect or the video binding is absent, return (no change); otherwise
assign `videoRef.current.currentTime = ratio * duration` with
`ratio = (clientX - rect.left) / rect.width`. -/
def handleProgressClick (rect : Option Rect) (v : Option Binding)
    (clientX : ℚ) (duration : ℚ) : Option Binding :=
  match rect, v with
  | some r, some b =>
      some { b with currentTime := (clientX - r.left) / r.width * duration }
  | _, _ => v

/-- The derived progress value (VideoPlayer.tsx line 87):
`duration ? (currentTime / duration) * 100 : 0` — the JavaScript
truthiness test on `duration` is `duration ≠ 0` on our rational model. -/
def progress (currentTime duration : ℚ) : ℚ :=
  if duration = 0 then 0 else currentTime / duration * 100

/-- UI state relevant to the control-visibility timer.  `hideTimer` models
the single `hideTimer.current` ref: `none` when no timeout is pending,
`some captured` when one is pending, where `captured` is the value of the
`playing` state variable captured by the scheduled callback's closure at the
moment `handleMouseMove` armed it (the callback reads that captured value,
not the live state, when it fires). -/
structure UIState where
  playing : Bool
  showControls : Bool
  hideTimer : Option Bool
deriving DecidableEq, Repr

/-- Handler `handleMouseMove` (VideoPlayer.tsx lines 81-85): `setShowControls(true)`,
`clearTimeout(hideTimer.current)` then reschedule — the pending timer, if
any, is replaced by a single new one whose callback captures the current
`playing` value. -/
def handleMouseMove (s : UIState) : UIState :=
  { s with showControls := true, hideTimer := some s.playing }

/-- Expiry of the 2.5 s hide timer: the scheduled callback
`() => { if (playing) setShowControls(false); }` runs with the `playing`
value captured when the timer was armed; the timer is then spent. -/
def fireHideTimer (s : UIState) : UIState :=
  match s.hideTimer with
  | none => s
  | some captured =>
    { s with hideTimer := none,
             showControls := if captured then false else s.showControls }

/-- A `setPlaying` state update occurring between the arming of the hide
timer and its expiry (e.g. the user toggling play/pause). -/
def setPlayingUI (b : Bool) (s : UIState) : UIState :=
  { s with playing := b }

/-- Which subscriptions/timers of the component are live: the three media
element listeners (VideoPlayer.tsx lines 50-52), the window `keydown`
listener (line 70), and whether a hide-timeout is pending (line 84). -/
structure Subscriptions where
  timeupdate : Bool
  loadedmetadata : Bool
  ended : Bool
  keydown : Bool
  hideTimerPending : Bool
deriving DecidableEq, Repr

/-- Cleanup of the media-listener effect (VideoPlayer.tsx lines 53-57):
removes the `timeupdate`, `loadedmetadata` and `ended` listeners. -/
def mediaListenersCleanup (s : Subscriptions) : Subscriptions :=
  { s with timeupdate := false, loadedmetadata := false, ended := false }

/-- Cleanup of the keydown effect (VideoPlayer.tsx line 71): removes the
window `keydown` listener. -/
def keydownCleanup (s : Subscriptions) : Subscriptions :=
  { s with keydown := false }

/-- Component teardown: React runs every registered effect cleanup.  The
component registers exactly the two cleanups above; no code clears
`hideTimer.current`. -/
def teardown (s : Subscriptions) : Subscriptions :=
  keydownCleanup (mediaListenersCleanup s)

/-- A late-arriving `ended` event after the host dispatches only to live
listeners: it mutates the state only if the `ended` subscription is
live. -/
def dispatchEnded (subs : Subscriptions) (N : Nat) (s : PState) : PState :=
  if subs.ended then onEnd N s else s

/-- JavaScript truncation toward zero of a rational (the rounding used by
the `%` operator on numbers). -/
def jsTrunc (q : ℚ) : Int :=
  if 0 ≤ q then ⌊q⌋ else ⌈q⌉

/-- JavaScript `%` on numbers: `a % b = a - b * trunc(a / b)`. -/
def jsFmod (a b : ℚ) : ℚ :=
  a - b * (jsTrunc (a / b) : ℚ)

/-- JavaScript `String.prototype.padStart(n, c)`: pad on the left with `c` up to
length `n` (no-op when already long enough). -/
def jsPadStart (s : String) (n : Nat) (c : Char) : String :=
  if n ≤ s.length then s
  else String.mk (List.replicate (n - s.length) c) ++ s

/-- Function `formatTime` (VideoPlayer.tsx lines 5-9):
`m = Math.floor(s / 60)`, `sec = Math.floor(s % 60)`, result
`` `${m}:${sec.toString().padStart(2, "0")}` ``. -/
def formatTime (s : ℚ) : String :=
  let m : Int := ⌊s / 60⌋
  let sec : Int := ⌊jsFmod s 60⌋
  toString m ++ ":" ++ jsPadStart (toString sec) 2 '0'

/-- One invocation of the component's own index-changing operations, as a
step relation on `currentIndex`: a sidebar click `goTo(i)` with
`0 ≤ i < N` (line 101), the prev/next buttons `goTo(currentIndex ∓ 1)`
(lines 152, 158), the ArrowLeft/ArrowRight keys (lines 63-64), and the
`ended` auto-advance `goTo(currentIndex + 1)` (line 49). -/
inductive Step (N : Nat) : Int → Int → Prop where
  | sidebar (cur i : Int) (h0 : 0 ≤ i) (hN : i < (N : Int)) :
      Step N cur (goToIndex N i)
  | prevButton (cur : Int) : Step N cur (goToIndex N (cur - 1))
  | nextButton (cur : Int) : Step N cur (goToIndex N (cur + 1))
  | arrowLeft (cur : Int) : Step N cur (goToIndex N (cur - 1))
  | arrowRight (cur : Int) : Step N cur (goToIndex N (cur + 1))
  | endedEvent (cur : Int) : Step N cur (goToIndex N (cur + 1))

/-- The `currentIndex` values reachable from the initial state
(`useState(0)`, line 14) by the component's own operations. -/
def ReachableIndex (N : Nat) (c : Int) : Prop :=
  Relation.ReflTransGen (Step N) 0 c

/-! Helper lemmas shared by several claims. -/

/-- For arguments `k ≥ -N` (the only ones the component itself produces),
the JavaScript remainder in `goToIndex` lands in `[0, N)`. -/
theorem goToIndex_nonneg_lt (N : Nat) (k : Int) (hN : 1 ≤ N)
    (hk : -(N : Int) ≤ k) : 0 ≤ goToIndex N k ∧ goToIndex N k < (N : Int) := by
  have hpos : (0 : Int) < (N : Int) := by omega
  have hplus : (0 : Int) ≤ k + (N : Int) := by omega
  exact ⟨Int.tmod_nonneg ((N : Int)) hplus, Int.tmod_lt_of_pos (k + (N : Int)) hpos⟩

/-- For arguments `k ≥ -N` the JavaScript remainder in `goToIndex` agrees
with mathematical modulo. -/
theorem goToIndex_eq_emod (N : Nat) (k : Int) (hN : 1 ≤ N)
    (hk : -(N : Int) ≤ k) : goToIndex N k = k % (N : Int) := by
  have hplus : (0 : Int) ≤ k + (N : Int) := by omega
  have hNn : (0 : Int) ≤ (N : Int) := by omega
  have h1 : goToIndex N k = (k + (N : Int)) % (N : Int) :=
    Int.tmod_eq_emod hplus hNn
  have h2 := Int.add_mul_emod_self_left k (N : Int) 1
  rw [mul_one] at h2
  rw [h1, h2]

/-- C1 (counterexample): the claim quantifies over every integer `k`, but the
code computes `(k + N) % N` with JavaScript's truncated remainder, which for
`k < -N` is negative.  At `N = 5`, `k = -6`: the code yields `-1` while the
proper modulo `((k % N) + N) % N` is `4`. -/
theorem goTo_proper_modulo_cex :
    (goTo 5 (-6) ⟨0, false⟩).currentIndex = -1 ∧
    ((-6 : Int) % 5 + 5) % 5 = 4 ∧
    ¬ (goTo 5 (-6) ⟨0, false⟩).currentIndex = ((-6 : Int) % 5 + 5) % 5 := by
  decide

/-- C1 (amended): for every playlist length `N ≥ 1` and every integer
`k ≥ -N` — which covers every invocation the component itself makes —
`goTo(k)` sets `currentIndex` to the proper mathematical modulo
`((k % N) + N) % N`; for `k < -N` the code's truncated remainder instead
produces a negative index. -/
theorem goTo_proper_modulo (N : Nat) (k : Int) (s : PState) (hN : 1 ≤ N)
    (hk : -(N : Int) ≤ k) :
    (goTo N k s).currentIndex = (k % (N : Int) + (N : Int)) % (N : Int) := by
  have hrhs : (k % (N : Int) + (N : Int)) % (N : Int) = k % (N : Int) := by
    have h2 := Int.add_mul_emod_self_left (k % (N : Int)) (N : Int) 1
    rw [mul_one] at h2
    rw [h2, Int.emod_emod_of_dvd k dvd_rfl]
  rw [hrhs]
  exact goToIndex_eq_emod N k hN hk

/-- C1 witness: `N = 5`, `goTo(-1)` lands on index `4 = ((-1 % 5) + 5) % 5`. -/
theorem goTo_proper_modulo_witness :
    (goTo 5 (-1) ⟨0, false⟩).currentIndex = ((-1 : Int) % 5 + 5) % 5 :=
  goTo_proper_modulo 5 (-1) ⟨0, false⟩ (by decide) (by decide)

/-- C3: in every state reachable from the initial `currentIndex = 0` by the
component's own operation invocations (sidebar click `goTo(i)` with
`0 ≤ i < N`, prev/next buttons, ArrowLeft/ArrowRight, ended auto-advance),
`currentIndex` stays in `[0, N)`. -/
theorem reachable_currentIndex_bounds (N : Nat) (c : Int) (hN : 1 ≤ N)
    (h : ReachableIndex N c) : 0 ≤ c ∧ c < (N : Int) := by
  induction h with
  | refl => exact ⟨le_refl 0, by omega⟩
  | tail hab hbc ih =>
    rename_i b c'
    obtain ⟨hb0, hbN⟩ := ih
    cases hbc with
    | sidebar i h0 hiN => exact goToIndex_nonneg_lt N i hN (by omega)
    | prevButton => exact goToIndex_nonneg_lt N (b - 1) hN (by omega)
    | nextButton => exact goToIndex_nonneg_lt N (b + 1) hN (by omega)
    | arrowLeft => exact goToIndex_nonneg_lt N (b - 1) hN (by omega)
    | arrowRight => exact goToIndex_nonneg_lt N (b + 1) hN (by omega)
    | endedEvent => exact goToIndex_nonneg_lt N (b + 1) hN (by omega)

/-- C3 witness: with `N = 2`, pressing the next button once from the initial
state reaches `goToIndex 2 (0 + 1)`, which lies in `[0, 2)`. -/
theorem reachable_currentIndex_bounds_witness :
    0 ≤ goToIndex 2 (0 + 1) ∧ goToIndex 2 (0 + 1) < (2 : Nat) :=
  reachable_currentIndex_bounds 2 (goToIndex 2 (0 + 1)) (by decide)
    (Relation.ReflTransGen.single (Step.nextButton 0))

/-- C4: `togglePlay()` branches on the binding's real `paused` flag, not the
cached `isPlaying`: absent binding ⇒ no command and no state change; real
paused ⇒ issues `play()` and optimistically sets `isPlaying := true`; real
playing ⇒ issues `pause()` and sets `isPlaying := false`. -/
theorem togglePlay_spec (s : PState) :
    togglePlay none s = ([], s) ∧
    (∀ b : Binding, b.paused = true →
      togglePlay (some b) s = ([MediaCmd.play], { s with playing := true })) ∧
    (∀ b : Binding, b.paused = false →
      togglePlay (some b) s = ([MediaCmd.pause], { s with playing := false })) := by
  refine ⟨rfl, ?_, ?_⟩ <;> intro b hb <;> simp [togglePlay, hb]

/-- C4 witness: a paused binding with the cached flag `false` gets a `play()`
command and the optimistic `isPlaying := true`. -/
theorem togglePlay_spec_witness :
    togglePlay (some ⟨true, 0⟩) ⟨0, false⟩ =
      ([MediaCmd.play], { currentIndex := 0, playing := true }) :=
  (togglePlay_spec ⟨0, false⟩).2.1 ⟨true, 0⟩ rfl

/-- C2 (counterexample): the claim says `isPlaying` becomes `false` after a
rejected play attempt settles, but the rejection handler `.catch(() => {})`
has an empty body: starting from `playing = true`, after a denied play
attempt during the reload effect the cached flag is still `true`. -/
theorem reload_denied_cex :
    (reloadEffect (some ⟨true, 0⟩) ⟨0, true⟩ PlayOutcome.denied).2.playing = true ∧
    ¬ (reloadEffect (some ⟨true, 0⟩) ⟨0, true⟩ PlayOutcome.denied).2.playing = false := by
  constructor <;> simp [reloadEffect]

/-- C2 (amended): when the asynchronous play attempt of the reload effect is
rejected, the rejection is caught by the empty `.catch` handler and ignored
with no user-visible error, and the React state is left entirely unchanged —
in particular `isPlaying` is *not* reverted to `false`. -/
theorem reload_denied_state_unchanged (v : Option Binding) (s : PState) :
    (reloadEffect v s PlayOutcome.denied).2 = s := by
  cases v with
  | none => rfl
  | some b =>
    simp only [reloadEffect]
    split <;> rfl

/-- C5: on the binding's `ended` event at a valid index `i`, the controller
navigates with playing intent: `playing` becomes `true`, the next index is
`i + 1` whenever `i < N - 1`, and at the last index `i = N - 1` it wraps to
`0`. -/
theorem onEnd_advance (N : Nat) (s : PState) (hN : 1 ≤ N)
    (h0 : 0 ≤ s.currentIndex) (_hiN : s.currentIndex < (N : Int)) :
    (onEnd N s).playing = true ∧
    (s.currentIndex < (N : Int) - 1 →
      (onEnd N s).currentIndex = s.currentIndex + 1) ∧
    (s.currentIndex = (N : Int) - 1 → (onEnd N s).currentIndex = 0) := by
  have hmod : (onEnd N s).currentIndex = (s.currentIndex + 1) % (N : Int) :=
    goToIndex_eq_emod N (s.currentIndex + 1) hN (by omega)
  refine ⟨rfl, ?_, ?_⟩
  · intro hlt
    rw [hmod]
    exact Int.emod_eq_of_lt (by omega) (by omega)
  · intro hlast
    rw [hmod, hlast]
    have : (N : Int) - 1 + 1 = (N : Int) := by omega
    rw [this, Int.emod_self]

/-- C5 witness: with `N = 2`, the `ended` event at the last index `1` wraps
to index `0` with playing intent. -/
theorem onEnd_advance_witness :
    (onEnd 2 ⟨1, false⟩).playing = true ∧
    ((⟨1, false⟩ : PState).currentIndex < ((2 : Nat) : Int) - 1 →
      (onEnd 2 ⟨1, false⟩).currentIndex = (⟨1, false⟩ : PState).currentIndex + 1) ∧
    ((⟨1, false⟩ : PState).currentIndex = ((2 : Nat) : Int) - 1 →
      (onEnd 2 ⟨1, false⟩).currentIndex = 0) :=
  onEnd_advance 2 ⟨1, false⟩ (by decide) (by decide) (by decide)

/-- C6: while the duration state is `0` (metadata not yet loaded — in which
state the media element's own `currentTime` is still `0`), a click on the
progress track writes `ratio * 0 = 0` into the binding, leaving the
binding — in particular its `currentTime` — unchanged. -/
theorem progressClick_unknown_duration (r : Rect) (b : Binding) (x : ℚ)
    (hmeta : b.currentTime = 0) :
    handleProgressClick (some r) (some b) x 0 = some b := by
  cases b with
  | mk p t =>
    simp only [Binding.currentTime] at hmeta
    simp [handleProgressClick, hmeta]

/-- C6 witness: duration `0`, fresh binding, click at `x = 42` over a track
of width `100`: the binding is returned unchanged. -/
theorem progressClick_unknown_duration_witness :
    handleProgressClick (some ⟨0, 100⟩) (some ⟨true, 0⟩) 42 0 = some ⟨true, 0⟩ :=
  progressClick_unknown_duration ⟨0, 100⟩ ⟨true, 0⟩ 42 rfl

/-- C7: the displayed progress equals `(currentTime / duration) * 100` when
`duration > 0` and `0` when `duration = 0`; the guard `duration ? ... : 0`
means the division is never evaluated at `duration = 0`, so no
division-by-zero value reaches the display. -/
theorem progress_spec (t d : ℚ) :
    (0 < d → progress t d = t / d * 100) ∧ progress t 0 = 0 := by
  constructor
  · intro hd
    simp [progress, ne_of_gt hd]
  · simp [progress]

/-- C7 witness: `currentTime = 30`, `duration = 120` displays `25`%, and
`duration = 0` displays `0`%. -/
theorem progress_spec_witness : progress 30 120 = 25 ∧ progress 30 0 = 0 := by
  have h := (progress_spec 30 120).1 (by norm_num)
  exact ⟨by rw [h]; norm_num, (progress_spec 30 0).2⟩

/-- C8 (counterexample): the scheduled hide callback tests the `playing`
value captured by its closure when the timer was armed, not the live state
at expiry.  Run: player playing, mouse moves (timer armed, captures
`playing = true`), player is paused, timer fires — the controls are hidden
even though the player is paused at expiry time. -/
theorem hideTimer_stale_capture_cex :
    (fireHideTimer (setPlayingUI false (handleMouseMove ⟨true, true, none⟩))).playing
        = false ∧
    (fireHideTimer (setPlayingUI false (handleMouseMove ⟨true, true, none⟩))).showControls
        = false ∧
    ¬ (fireHideTimer (setPlayingUI false (handleMouseMove ⟨true, true, none⟩))).showControls
        = true := by
  decide

/-- C8 (amended): every pointer movement sets `controlsVisible := true` and
replaces (never stacks) the single pending hide timer; when the timer
expires, controls are hidden exactly when the `playing` value captured at
the moment the timer was armed was `true` — not the live `playing` value at
expiry time — and an absent timer makes expiry a no-op. -/
theorem hideTimer_spec (s : UIState) :
    (handleMouseMove s).showControls = true ∧
    (handleMouseMove s).hideTimer = some s.playing ∧
    (∀ cap : Bool, s.hideTimer = some cap →
      fireHideTimer s =
        { s with hideTimer := none,
                 showControls := if cap then false else s.showControls }) ∧
    (s.hideTimer = none → fireHideTimer s = s) := by
  refine ⟨rfl, rfl, ?_, ?_⟩
  · intro cap hcap
    simp [fireHideTimer, hcap]
  · intro hnone
    simp [fireHideTimer, hnone]

/-- C8 witness: a timer armed while playing, firing after a pause, hides the
controls (the captured value decides). -/
theorem hideTimer_spec_witness :
    fireHideTimer ⟨false, true, some true⟩ =
      { playing := false, showControls := false, hideTimer := none } :=
  (hideTimer_spec ⟨false, true, some true⟩).2.2.1 true rfl

/-- C9 (counterexample): teardown runs the two effect cleanups, which remove
the four event listeners, but no code cancels `hideTimer.current`: a pending
hide timer survives teardown, contradicting the claim that every pending
timer is cancelled. -/
theorem teardown_timer_cex :
    (teardown ⟨true, true, true, true, true⟩).hideTimerPending = true ∧
    ¬ (teardown ⟨true, true, true, true, true⟩).hideTimerPending = false := by
  decide

/-- C9 (amended): on teardown every event subscription (the media
`timeupdate`/`loadedmetadata`/`ended` listeners and the window `keydown`
listener) is released — so a late-arriving `ended` event dispatched
afterwards mutates no state — but the pending control-hide timer is *not*
cancelled: teardown leaves `hideTimerPending` exactly as it was. -/
theorem teardown_spec (s : Subscriptions) :
    (teardown s).timeupdate = false ∧
    (teardown s).loadedmetadata = false ∧
    (teardown s).ended = false ∧
    (teardown s).keydown = false ∧
    (teardown s).hideTimerPending = s.hideTimerPending ∧
    (∀ (N : Nat) (p : PState), dispatchEnded (teardown s) N p = p) := by
  refine ⟨rfl, rfl, rfl, rfl, rfl, ?_⟩
  intro N p
  simp [dispatchEnded, teardown, keydownCleanup, mediaListenersCleanup]

/-- Floor of a rational divided by 60 equals integer division of its floor
by 60 (needed to relate `Math.floor(s % 60)` to `Math.floor(s) mod 60`). -/
theorem floor_div_sixty (q : ℚ) : ⌊q / 60⌋ = ⌊q⌋ / 60 := by
  have hfl : (⌊q⌋ : ℚ) ≤ q := Int.floor_le q
  have hfu : q < ⌊q⌋ + 1 := Int.lt_floor_add_one q
  have hmod0 : (0 : Int) ≤ ⌊q⌋ % 60 := Int.emod_nonneg _ (by norm_num)
  have hmod1 : ⌊q⌋ % 60 < 60 := Int.emod_lt_of_pos _ (by norm_num)
  have hdef : ⌊q⌋ % 60 = ⌊q⌋ - 60 * (⌊q⌋ / 60) := by omega
  rw [Int.floor_eq_iff]
  constructor
  · rw [le_div_iff₀ (by norm_num : (0 : ℚ) < 60)]
    have hle : (60 : Int) * (⌊q⌋ / 60) ≤ ⌊q⌋ := by omega
    calc ((⌊q⌋ / 60 : Int) : ℚ) * 60
        = ((60 * (⌊q⌋ / 60) : Int) : ℚ) := by push_cast; ring
      _ ≤ (⌊q⌋ : ℚ) := by exact_mod_cast hle
      _ ≤ q := hfl
  · rw [div_lt_iff₀ (by norm_num : (0 : ℚ) < 60)]
    have hlt : ⌊q⌋ + 1 ≤ 60 * (⌊q⌋ / 60) + 60 := by omega
    calc q < (⌊q⌋ : ℚ) + 1 := hfu
      _ ≤ ((60 * (⌊q⌋ / 60) + 60 : Int) : ℚ) := by exact_mod_cast hlt
      _ = (((⌊q⌋ / 60 : Int) : ℚ) + 1) * 60 := by push_cast; ring

/-- For a non-negative rational `s`, `Math.floor(s % 60)` (JavaScript `%`)
equals `Math.floor(s) mod 60`. -/
theorem floor_jsFmod_sixty (s : ℚ) (hs : 0 ≤ s) :
    ⌊jsFmod s 60⌋ = ⌊s⌋ % 60 := by
  have hq : 0 ≤ s / 60 := div_nonneg hs (by norm_num)
  have htr : jsTrunc (s / 60) = ⌊s / 60⌋ := by simp [jsTrunc, hq]
  have hfm : jsFmod s 60 = s - ((60 * ⌊s / 60⌋ : Int) : ℚ) := by
    simp only [jsFmod, htr]
    push_cast
    ring
  rw [hfm, Int.floor_sub_int, floor_div_sixty]
  omega

/-- Any integer in `[0, 60)` printed and padded with `padStart(2, "0")`
renders as exactly two characters. -/
theorem padStart_sixty_length (n : Int) (h0 : 0 ≤ n) (h60 : n < 60) :
    (jsPadStart (toString n) 2 '0').length = 2 := by
  obtain ⟨m, rfl⟩ := Int.eq_ofNat_of_zero_le h0
  have hm : m < 60 := by exact_mod_cast h60
  have key : ∀ j : Nat, j < 60 →
      (jsPadStart (toString (Int.ofNat j)) 2 '0').length = 2 := by decide
  exact key m hm

/-- C10: for every non-negative rational number of seconds `s`,
`formatTime(s)` returns `"M:SS"` with `M = Math.floor(s / 60)` and
`SS = Math.floor(s) mod 60` rendered by `padStart(2, "0")` as exactly two
characters. -/
theorem formatTime_spec (s : ℚ) (hs : 0 ≤ s) :
    formatTime s =
      toString ⌊s / 60⌋ ++ ":" ++ jsPadStart (toString (⌊s⌋ % 60)) 2 '0' ∧
    (jsPadStart (toString (⌊s⌋ % 60)) 2 '0').length = 2 := by
  constructor
  · simp only [formatTime, floor_jsFmod_sixty s hs]
  · exact padStart_sixty_length (⌊s⌋ % 60) (Int.emod_nonneg _ (by norm_num))
      (Int.emod_lt_of_pos _ (by norm_num))

/-- C10 witness: `formatTime(61) = "1:01"` and `formatTime(0) = "0:00"`. -/
theorem formatTime_spec_witness : formatTime 61 = "1:01" ∧ formatTime 0 = "0:00" := by
  constructor
  · have h := (formatTime_spec 61 (by norm_num)).1
    have e1 : ⌊(61 : ℚ) / 60⌋ = 1 := by norm_num
    have e2 : ⌊(61 : ℚ)⌋ = 61 := by norm_num
    rw [h, e1, e2]
    decide
  · have h := (formatTime_spec 0 (by norm_num)).1
    have e1 : ⌊(0 : ℚ) / 60⌋ = 0 := by norm_num
    have e2 : ⌊(0 : ℚ)⌋ = 0 := by norm_num
    rw [h, e1, e2]
    decide
